import Mathlib

/-!
# Verification development for the filmklapper crawler

Shallow embedding of `filmklapper.py`: a two-stage concurrent crawler that
scrapes a cinema chain's listing and detail pages, normalizes dates and
titles, resolves an external (IMDB) rating per movie, and collects
(listing URL, rating URL) pairs for movies rated above a threshold.

Python exceptions are modelled with `Except PyErr`; machine floats of the
source hold decimal rating values and are modelled as `ℚ`; HTTP fetches and
DOM parsing are abstracted as oracle parameters (functions passed in), while
all string processing, regular-expression matching and date arithmetic are
embedded faithfully from the source.  Dates are modelled as proleptic
Gregorian ordinals (day numbers, as in Python `date.toordinal`), with
`toOrdinal` implementing the standard civil-calendar formula.
-/

/-- Python exception kinds that the source can raise.  `parseError` is
`PatheMovieParseError`, `imdbNotFound` is `IMDBMovieNotFoundError`;
`attributeError`, `indexError`, `valueError` are the builtins raised by
`None.groups()`, out-of-range `[i]`, and `list.index`/`strptime`/`float`
respectively; `runtimeError` is the explicit `RuntimeError`;
`uncaughtException` stands for an exception type the source does not catch. -/
inductive PyErr
  | attributeError
  | indexError
  | valueError
  | parseError
  | imdbNotFound
  | runtimeError
  | uncaughtException
deriving DecidableEq, Repr

/-- ASCII whitespace, as matched by Python `\s` and `str.split()`/`str.strip()`
(the source data never contains non-ASCII whitespace). -/
def isPySpace (c : Char) : Bool :=
  c = ' ' || c = '\t' || c = '\n' || c = '\r' || c = Char.ofNat 11 || c = Char.ofNat 12

/-- Python `''.join(s.split())`: remove every whitespace character. -/
def removeWhitespace (s : String) : String :=
  String.mk (s.toList.filter (fun c => !isPySpace c))

/-- Python `str.strip()`: drop leading and trailing whitespace. -/
def pyStrip (s : String) : String :=
  String.mk (((s.toList.dropWhile isPySpace).reverse.dropWhile isPySpace).reverse)

/-- Numeric value of a digit list (most significant first). -/
def digitsVal (l : List Char) : ℕ :=
  l.foldl (fun a c => a * 10 + (c.toNat - 48)) 0

/-- Lowercase ASCII letter, as matched by the regex class between the
brackets a and z. -/
def isLowerAZ (c : Char) : Bool :=
  'a' ≤ c && c ≤ 'z'

/-- Drop a literal pattern from the front of a character list. -/
def dropLit : List Char → List Char → Option (List Char)
  | l, [] => some l
  | [], _ :: _ => none
  | c :: l, p :: ps => if c = p then dropLit l ps else none

/-- Fuel-driven worker for Python `str.split(sep)` with a non-empty
separator: scan left to right, splitting at each non-overlapping
occurrence.  The fuel is an upper bound on the scan length (one unit per
consumed character suffices, since a separator match consumes at least one
character); it makes the recursion structural. -/
def pySplitAux (sep : List Char) : ℕ → List Char → List (List Char)
  | _, [] => [[]]
  | 0, l => [l]
  | fuel + 1, c :: rest =>
    match dropLit (c :: rest) sep with
    | some remainder => [] :: pySplitAux sep fuel remainder
    | none =>
      match pySplitAux sep fuel rest with
      | h :: t => (c :: h) :: t
      | [] => [[c]]

/-- Python `s.split(sep)` for a non-empty separator. -/
def pySplit (s : String) (sep : String) : List String :=
  (pySplitAux sep.toList s.toList.length s.toList).map (fun l => String.mk l)

/-- Python `s.replace(c1, c2)` for single-character arguments. -/
def pyReplaceChar (c1 c2 : Char) (s : String) : String :=
  String.mk (s.toList.map (fun c => if c = c1 then c2 else c))

/-! ## Constants of the source -/

def SKIP_SPECIAL : List String :=
  ["PathéOpera", "PathéArt", "PathéBallet", "PathéOperaEncore", "PathéTheatre"]

def DAYS_OF_WEEK : List String :=
  ["maandag", "dinsdag", "woensdag", "donderdag", "vrijdag", "zaterdag", "zondag"]

def MONTHS_SHORT : List String :=
  ["jan", "feb", "mrt", "apr", "mei", "jun", "jul", "aug", "sep", "okt", "nov", "dec"]

def MONTHS_FULL : List String :=
  ["januari", "februari", "maart", "april", "mei", "juni", "juli", "augustus",
   "september", "oktober", "november", "december"]

/-! ## Calendar arithmetic (Python `datetime.date` ordinals) -/

def isLeapYear (y : ℕ) : Bool :=
  y % 4 = 0 && (y % 100 ≠ 0 || y % 400 = 0)

def daysInMonth (y m : ℕ) : ℕ :=
  if m = 2 then (if isLeapYear y then 29 else 28)
  else if m = 4 || m = 6 || m = 9 || m = 11 then 30
  else 31

/-- Days in all months of year `y` strictly before month `m`. -/
def daysBeforeMonth (y m : ℕ) : ℕ :=
  (List.range (m - 1)).foldl (fun a i => a + daysInMonth y (i + 1)) 0

/-- Days in all years strictly before year `y` (proleptic Gregorian). -/
def daysBeforeYear (y : ℕ) : ℕ :=
  365 * (y - 1) + (y - 1) / 4 - (y - 1) / 100 + (y - 1) / 400

/-- Python `date(y, m, d).toordinal()`: day number with 0001-01-01 = 1. -/
def toOrdinal (y m d : ℕ) : ℕ :=
  daysBeforeYear y + daysBeforeMonth y m + d

/-- Python `date.weekday()` of an ordinal: 0 = Monday ... 6 = Sunday
(ordinal 1, i.e. 0001-01-01, was a Monday). -/
def ordWeekday (d : ℕ) : ℕ :=
  (d + 6) % 7

/-- The clock instant read by `datetime.datetime.now()`: the current year,
the ordinal of the current date, and minutes elapsed past midnight.  The
comparison of a midnight `strptime` result against `now` is strict on this
pair. -/
structure PyNow where
  nYear : ℕ
  nOrd : ℕ
  nMins : ℕ
deriving DecidableEq, Repr

/-- A `datetime` at midnight of ordinal `d` is `<` the instant `now`. -/
def midnightBeforeNow (d : ℕ) (now : PyNow) : Bool :=
  d < now.nOrd || (d = now.nOrd && 0 < now.nMins)

/-! ## Translation adapter (`nl_to_en`) -/

/-- Outcome of one call to the external translation service
(`goslate.Goslate().translate`). -/
inductive TransResult
  | ok (s : String)
  | httpError
  | otherFailure
deriving DecidableEq, Repr

/-- `nl_to_en`: translate Dutch text to English.  The source wraps the
external call in a handler that catches only `urllib.error.HTTPError` and
returns the input text; any other exception from the call is not caught. -/
def nl_to_en (gs : String → TransResult) (text : String) : Except PyErr String :=
  match gs text with
  | TransResult.ok s => Except.ok s
  | TransResult.httpError => Except.ok text
  | TransResult.otherFailure => Except.error PyErr.uncaughtException

/-! ## Date normalization (`next_weekday`, `normalize_date`) -/

/-- `next_weekday`: date of the next occurrence of the weekday with index
`weekday` (0 = Monday), strictly after `today`.  `days_ahead` may start
non-positive, in which case 7 is added. -/
def next_weekday (today : ℕ) (weekday : ℕ) : ℕ :=
  let days_ahead : ℤ := (weekday : ℤ) - (ordWeekday today : ℤ)
  let days_ahead : ℤ := if days_ahead ≤ 0 then days_ahead + 7 else days_ahead
  ((today : ℤ) + days_ahead).toNat

/-- Match of the anchored regex for a precise date label,
`^.*\s(\d{2})\s([a-z]{3})$`: the final seven characters must be a
whitespace, two digits, a whitespace and three lowercase letters; the
leading `.*` matches anything without a newline.  Returns the numeric day
and the three-letter month abbreviation. -/
def preciseDateMatch (s : List Char) : Option (ℕ × String) :=
  match s.reverse with
  | c3 :: c2 :: c1 :: w2 :: d2 :: d1 :: w1 :: rest =>
    if isPySpace w1 && d1.isDigit && d2.isDigit && isPySpace w2 &&
       isLowerAZ c1 && isLowerAZ c2 && isLowerAZ c3 &&
       rest.all (fun c => c != '\n') then
      some ((d1.toNat - 48) * 10 + (d2.toNat - 48), String.mk [c1, c2, c3])
    else none
  | _ => none

/-- `normalize_date`: translate a Pathé day label into a date (ordinal).
`today` is the module-level `TODAY` constant; `now` is the value of
`datetime.datetime.now()` during the call.  In the precise-date branch the
source increments the local `year` variable when the parsed date is in the
past, but then re-parses the unmodified `date_str` string, so the returned
date is rebuilt from the original year. -/
def normalize_date (today : ℕ) (now : PyNow) (day_name : String) : Except PyErr ℕ :=
  if day_name = "vandaag" then
    Except.ok today
  else if day_name = "morgen" then
    Except.ok (today + 1)
  else if day_name ∈ DAYS_OF_WEEK then
    Except.ok (next_weekday today (DAYS_OF_WEEK.indexOf day_name))
  else
    match preciseDateMatch day_name.toList with
    | none => Except.error PyErr.parseError
    | some (day, monthName) =>
      match MONTHS_SHORT.indexOf? monthName with
      | none => Except.error PyErr.valueError
      | some mi =>
        let month := mi + 1
        let year := now.nYear
        -- strptime validates the combination of day and month
        if 1 ≤ day ∧ day ≤ daysInMonth year month then
          let showtime_date := toOrdinal year month day
          if midnightBeforeNow showtime_date now then
            -- year += 1, but date_str is not rebuilt: the re-parse below
            -- reads the original string and yields the same date
            Except.ok (toOrdinal year month day)
          else
            Except.ok showtime_date
        else
          Except.error PyErr.valueError

/-! ## Title normalization (`get_movie_title`) -/

/-- The end of the title regex after the opening parenthesis: the greedy
inner group (newline-free), the closing parenthesis, and the regex dollar
anchor.  In Python (without the MULTILINE flag) the dollar matches at the
absolute end of the string or just before one final trailing newline, so
the closing parenthesis may be the last character or be followed by
exactly one newline that ends the string. -/
def titleEndMatches (rest : List Char) : Bool :=
  let core := if rest.getLast? == some '\n' then rest.dropLast else rest
  core.getLast? == some ')' && core.tail.dropLast.all (fun c => c != '\n')

/-- Does a character list match the tail pattern of the title regex,
i.e. the part after the first group in `^(.*)\s(\(.*\))$`: one whitespace,
an opening parenthesis, then any newline-free text, then a closing
parenthesis at the dollar anchor. -/
def titleTailMatches : List Char → Bool
  | [] => false
  | w :: rest =>
    isPySpace w && rest.head? == some '(' && titleEndMatches rest

/-- Greedy search for the first group of `^(.*)\s(\(.*\))$`: the longest
newline-free prefix `pre` whose remaining suffix matches the tail pattern.
Longer prefixes are tried first, matching the greediness of the leading
group. -/
def titleStrip : List Char → List Char → Option (List Char)
  | _, [] => none
  | pre, c :: suf =>
    match titleStrip (pre ++ [c]) suf with
    | some r => some r
    | none =>
      if pre.all (fun x => x != '\n') && titleTailMatches (c :: suf) then
        some pre
      else none

/-- The normalization step of `get_movie_title`: apply the single anchored
match `^(.*)\s(\(.*\))$` and, when it succeeds, keep only the first group. -/
def normalizeTitle (title : String) : String :=
  match titleStrip [] title.toList with
  | some pre => String.mk pre
  | none => title

/-- `get_movie_title`: the raw title is the first non-empty of the two
xpath queries (Python `or` on strings), then normalized. -/
def get_movie_title (titleH1 titleAlt : String) : String :=
  normalizeTitle (if titleH1.isEmpty then titleAlt else titleH1)

/-! ## Field extractors

Each extractor receives the raw result of its xpath query: a `string()`
query yields `""` when the element is absent, a node-set query yields `[]`.
-/

/-- `get_movie_special`: on a non-empty result, strip all whitespace and
take the text after the colon (`split(':')[1]`, an `IndexError` when no
colon is present). -/
def get_movie_special (specialString : String) : Except PyErr (Option String) :=
  if specialString.isEmpty then Except.ok none
  else
    match (pySplit (removeWhitespace specialString) ":").get? 1 with
    | some t => Except.ok (some t)
    | none => Except.error PyErr.indexError

/-- `get_movie_genres`: strip whitespace, split off the `Genre:` prefix,
split on commas and translate each entry. -/
def get_movie_genres (gs : String → TransResult) (genresString : String) :
    Except PyErr (Option (List String)) :=
  if genresString.isEmpty then Except.ok none
  else
    match (pySplit (removeWhitespace genresString) ":").get? 1 with
    | none => Except.error PyErr.indexError
    | some g => do
      let genres ← (pySplit g ",").mapM (nl_to_en gs)
      Except.ok (some genres)

/-- Match of `^Duur:\s+(\d+)\s+minuten$`: the literal `Duur:`, one or more
whitespace characters, one or more digits (the group), one or more
whitespace characters, and the literal `minuten` at the end. -/
def durationMatch (l : List Char) : Option String :=
  match l with
  | 'D' :: 'u' :: 'u' :: 'r' :: ':' :: rest =>
    let (ws1, r1) := rest.span isPySpace
    let (ds, r2) := r1.span Char.isDigit
    let (ws2, r3) := r2.span isPySpace
    if ws1 ≠ [] && ds ≠ [] && ws2 ≠ [] && r3 = "minuten".toList then
      some (String.mk ds)
    else none
  | _ => none

/-- `get_movie_duration`: strip, match the duration pattern, and return the
digit group (the source returns the matched string unconverted). -/
def get_movie_duration (durationString : String) : Option String :=
  durationMatch (pyStrip durationString).toList

/-- `get_movie_language`: on a non-empty result, strip, take the text after
the `": "` separator (`IndexError` when absent) and translate it. -/
def get_movie_language (gs : String → TransResult) (languageString : String) :
    Except PyErr (Option String) :=
  if languageString.isEmpty then Except.ok none
  else
    match (pySplit (pyStrip languageString) ": ").get? 1 with
    | none => Except.error PyErr.indexError
    | some l => do
      let language ← nl_to_en gs l
      Except.ok (some language)

/-- `get_movie_technologies`: strip whitespace, take the text after the
colon, split on commas. -/
def get_movie_technologies (technologiesString : String) :
    Except PyErr (Option (List String)) :=
  if technologiesString.isEmpty then Except.ok none
  else
    match (pySplit (removeWhitespace technologiesString) ":").get? 1 with
    | none => Except.error PyErr.indexError
    | some t => Except.ok (some (pySplit t ","))

/-- Python `float(s)` on the decimal rating strings of the source:
optional surrounding whitespace, optional sign, digits with an optional
fractional part (exponent forms do not occur in the data and are not
modelled). -/
def parsePyFloat (s : String) : Option ℚ :=
  let l := ((s.toList.dropWhile isPySpace).reverse.dropWhile isPySpace).reverse
  let sl : ℚ × List Char :=
    match l with
    | '-' :: r => (-1, r)
    | '+' :: r => (1, r)
    | _ => (1, l)
  let (ip, r1) := sl.2.span Char.isDigit
  match r1 with
  | [] => if ip = [] then none else some (sl.1 * (digitsVal ip : ℚ))
  | '.' :: r2 =>
    let (fp, r3) := r2.span Char.isDigit
    if r3 = [] ∧ (ip ≠ [] ∨ fp ≠ []) then
      some (sl.1 * ((digitsVal ip : ℚ) + (digitsVal fp : ℚ) / (10 ^ fp.length)))
    else none
  | _ => none

/-- `get_movie_rating`: on a non-empty result replace commas by dots and
convert with `float` (`ValueError` when unparsable). -/
def get_movie_rating (ratingString : String) : Except PyErr (Option ℚ) :=
  if ratingString.isEmpty then Except.ok none
  else
    match parsePyFloat (pyReplaceChar ',' '.' ratingString) with
    | some q => Except.ok (some q)
    | none => Except.error PyErr.valueError

/-- Match of `^/themes/main/gfx/icons/kijkwijzer/(.*).png$` against an icon
path: the literal directory, then the group (newline-free), then one
arbitrary character (the unescaped dot of the regex), then the literal
`png` at the end.  Returns the group. -/
def kijkwijzerMatch (l : List Char) : Option String :=
  match dropLit l "/themes/main/gfx/icons/kijkwijzer/".toList with
  | none => none
  | some rest =>
    match rest.reverse with
    | 'g' :: 'n' :: 'p' :: dot :: grpRev =>
      if dot ≠ '\n' && grpRev.all (fun c => c != '\n') then
        some (String.mk grpRev.reverse)
      else none
    | _ => none

/-- `get_movie_restrictions`: for each icon path, try the kijkwijzer regex;
a path that does not match is skipped (`continue`).  A matching name is
mapped to `unknown` or `n/a` for the two placeholder icons, to the text
after `kijkwijzer-` when that substring occurs (Python tests the substring
with `in`, equivalent to the split producing at least two parts), and
otherwise raises `PatheMovieParseError`. -/
def get_movie_restrictions (srcPaths : List String) : Except PyErr (List String) :=
  srcPaths.foldlM
    (fun acc r =>
      match kijkwijzerMatch r.toList with
      | none => Except.ok acc
      | some name =>
        if name = "rating-onbekend-z" then Except.ok (acc ++ ["unknown"])
        else if name = "rating-nvt-z" then Except.ok (acc ++ ["n/a"])
        else
          match (pySplit name "kijkwijzer-").get? 1 with
          | some tagText => Except.ok (acc ++ [tagText])
          | none => Except.error PyErr.parseError)
    []

/-- One `slider-entry` element: the `span/text()` results and whether a
`Regisseur` marker is present. -/
structure PersonEntry where
  names : List String
  isDirector : Bool
deriving DecidableEq, Repr

/-- `get_movie_directors_cast`: partition the person entries; indexing
`[0]` into an entry with no name raises `IndexError`. -/
def get_movie_directors_cast (people : List PersonEntry) :
    Except PyErr (List String × List String) :=
  people.foldlM
    (fun (acc : List String × List String) p =>
      match p.names.head? with
      | none => Except.error PyErr.indexError
      | some n =>
        if p.isDirector then Except.ok (acc.1 ++ [n], acc.2)
        else Except.ok (acc.1, acc.2 ++ [n]))
    ([], [])

/-- After the day digits of `^(\d{1,2})\s([a-z]+)\s(\d{4})`, the remainder
must supply one whitespace, one or more lowercase letters, one whitespace
and four digits; the rest of the string is unconstrained (the regex is not
anchored at the end). -/
def releaseTail (l : List Char) (dayDigits : List Char) :
    Option (ℕ × String × ℕ) :=
  match l with
  | w :: rest =>
    if isPySpace w then
      let (ls, r1) := rest.span isLowerAZ
      if ls = [] then none
      else
        match r1 with
        | w2 :: a :: b :: c :: d :: _ =>
          if isPySpace w2 && a.isDigit && b.isDigit && c.isDigit && d.isDigit then
            some (digitsVal dayDigits, String.mk ls, digitsVal [a, b, c, d])
          else none
        | _ => none
    else none
  | [] => none

/-- Match of `^(\d{1,2})\s([a-z]+)\s(\d{4})`: the greedy day group tries
two digits first and backtracks to one. -/
def releaseDateMatch (l : List Char) : Option (ℕ × String × ℕ) :=
  match l with
  | [] => none
  | d1 :: rest1 =>
    if d1.isDigit then
      match rest1 with
      | d2 :: rest2 =>
        if d2.isDigit then
          match releaseTail rest2 [d1, d2] with
          | some r => some r
          | none => releaseTail rest1 [d1]
        else releaseTail rest1 [d1]
      | [] => none
    else none

/-- `get_movie_release_date`: the source calls `.groups()` on the match
object without checking it, so an absent element (empty string) raises
`AttributeError`; a matched month name outside `MONTHS_FULL` raises
`ValueError` from `list.index`, and `strptime` validates the date. -/
def get_movie_release_date (dateString : String) : Except PyErr ℕ :=
  match releaseDateMatch dateString.toList with
  | none => Except.error PyErr.attributeError
  | some (day, monthName, year) =>
    match MONTHS_FULL.indexOf? monthName with
    | none => Except.error PyErr.valueError
    | some mi =>
      let month := mi + 1
      if 1 ≤ day ∧ day ≤ daysInMonth year month then
        Except.ok (toOrdinal year month day)
      else
        Except.error PyErr.valueError

/-! ## Rating resolver (`get_imdb_id_by_title`, `get_movie_imdb_rating`)

The IMDB search endpoint is abstracted as an oracle
`search : String → Option ℕ` giving the numeric id extracted from the
first result of the `Titles` section, or `none` when that section is
absent; the detail-page fetch is an oracle `ratingOf : ℕ → Option ℚ`
giving the parsed `ratingValue` element when present. -/

/-- `get_imdb_id_by_title`: raises `IMDBMovieNotFoundError` when the search
yields no `Titles` section. -/
def get_imdb_id_by_title (search : String → Option ℕ) (title : String) :
    Except PyErr ℕ :=
  match search title with
  | none => Except.error PyErr.imdbNotFound
  | some i => Except.ok i

/-- `get_movie_imdb_rating`: dispatch on which keyword arguments are
present.  A title is searched, with one retry on a translated title when
the first search raises `IMDBMovieNotFoundError`; an id is used directly;
with neither a `RuntimeError` is raised.  The `title` branch is tested
first, so a call carrying both keywords uses the title. -/
def get_movie_imdb_rating (search : String → Option ℕ) (gs : String → TransResult)
    (ratingOf : ℕ → Option ℚ) (title : Option String) (id : Option ℕ) :
    Except PyErr (ℕ × Option ℚ) := do
  let imdb_id ←
    match title with
    | some t =>
      match get_imdb_id_by_title search t with
      | Except.ok i => pure i
      | Except.error PyErr.imdbNotFound => do
        let t2 ← nl_to_en gs t
        get_imdb_id_by_title search t2
      | Except.error e => throw e
    | none =>
      match id with
      | some i => pure i
      | none => throw PyErr.runtimeError
  pure (imdb_id, ratingOf imdb_id)

/-! ## Detail worker body (`process_movie`) -/

/-- The per-movie xpath results that one detail worker iteration reads. -/
structure MovieDoc where
  specialString : String
  titleH1 : String
  titleAlt : String
deriving DecidableEq, Repr

/-- Drop one arbitrary non-newline character (an unescaped regex dot). -/
def dropAnyChar : List Char → Option (List Char)
  | c :: r => if c ≠ '\n' then some r else none
  | [] => none

/-- Match of `^http://www.pathe.nl/film/(\d+)/(.*)$` against the detail
URL (the dots of the pattern are unescaped and match any character):
returns the id digits and the trailing slug. -/
def patheUrlMatch (s : List Char) : Option (List Char × List Char) := do
  let r1 ← dropLit s "http://www".toList
  let r2 ← dropAnyChar r1
  let r3 ← dropLit r2 "pathe".toList
  let r4 ← dropAnyChar r3
  let r5 ← dropLit r4 "nl/film/".toList
  let (ds, r6) := r5.span Char.isDigit
  if ds = [] then none
  else
    match r6 with
    | '/' :: rest => if rest.all (fun c => c != '\n') then some (ds, rest) else none
    | _ => none

/-- Python truthiness of `special` followed by the membership test
`special in SKIP_SPECIAL` (a `None` special is never a member). -/
def specialSkipped (special : Option String) : Bool :=
  match special with
  | some s => SKIP_SPECIAL.contains s
  | none => false

/-- The condition `imdb_rating and imdb_rating > 8`: the rating must be
present, truthy (non-zero) and strictly greater than 8. -/
def ratingPasses (rating : Option ℚ) : Bool :=
  match rating with
  | none => false
  | some r => decide (r ≠ 0) && decide (8 < r)

/-- The IMDB link appended to the results,
`'http://imdb.com/title/tt{0}'.format(imdb_id)`. -/
def imdbUrl (id : Option ℕ) : String :=
  "http://imdb.com/title/tt" ++ (match id with | some n => toString n | none => "None")

/-- One iteration of the `process_movie` worker body on a popped URL:
match the URL (an `AttributeError` on mismatch, as `.groups()` is called
unchecked), extract the special status and discard skip-set movies,
extract the title, resolve the rating — catching only
`IMDBMovieNotFoundError`, which leaves both id and rating as `None` — and
return the appended result record, if any.  (The local `specials` list of
the source is built and never read; it has no observable effect.) -/
def process_movie_step (search : String → Option ℕ) (gs : String → TransResult)
    (ratingOf : ℕ → Option ℚ) (url : String) (doc : MovieDoc) :
    Except PyErr (Option (String × String)) := do
  match patheUrlMatch url.toList with
  | none => throw PyErr.attributeError
  | some _ => pure ()
  let special ← get_movie_special doc.specialString
  if specialSkipped special then
    return none
  let title := get_movie_title doc.titleH1 doc.titleAlt
  let idAndRating : Option ℕ × Option ℚ ←
    match get_movie_imdb_rating search gs ratingOf (some title) none with
    | Except.ok (i, r) => pure (some i, r)
    | Except.error PyErr.imdbNotFound => pure (none, none)
    | Except.error e => throw e
  if ratingPasses idAndRating.2 then
    return some (url, imdbUrl idAndRating.1)
  else
    return none

/-- Whether an external rating was resolved for the detail page: the URL
was well-formed, the special status was extracted and was not in the
skip-set, and the rating lookup for the extracted title succeeded with a
rating present. -/
def resolvedRating (search : String → Option ℕ) (gs : String → TransResult)
    (ratingOf : ℕ → Option ℚ) (url : String) (doc : MovieDoc) :
    Option (ℕ × ℚ) :=
  match patheUrlMatch url.toList with
  | none => none
  | some _ =>
    match get_movie_special doc.specialString with
    | Except.error _ => none
    | Except.ok sp =>
      if specialSkipped sp then none
      else
        match get_movie_imdb_rating search gs ratingOf
            (some (get_movie_title doc.titleH1 doc.titleAlt)) none with
        | Except.ok (i, some r) => some (i, r)
        | _ => none

/-! ## Pipeline coordinator and worker pools

The concurrent shutdown protocol of the `__main__` block is modelled as a
small-step transition system.  Queue items are URLs (abstracted to numeric
ids) or the `None` termination sentinel; `queue.Queue` semantics are
embedded exactly: `put` appends and increments the unfinished-task count,
`get` blocks until an item is at the front, `task_done` decrements the
count, and `join` blocks until the count is zero.  Worker pools are
multisets of worker states; page contents (the detail URLs each listing
page yields) are the oracle `discover`. -/

/-- A queue item: a URL or the `None` sentinel. -/
inductive QItem
  | urlItem (u : ℕ)
  | sentinel
deriving DecidableEq, Repr

/-- State of one listing-page worker (`process_movies_list_page`):
blocked on `get`, pushing the discovered detail URLs of a popped page, or
exited after popping the sentinel. -/
inductive PW
  | pidle
  | pworking (pending : List ℕ)
  | pdone
deriving DecidableEq, Repr

/-- State of one detail worker (`process_movie`): blocked on `get`,
processing a popped URL, or exited after popping the sentinel. -/
inductive MW
  | midle
  | mworking (u : ℕ)
  | mdone
deriving DecidableEq, Repr

/-- Program counter of the `__main__` coordinator: seed the listing URLs,
join the pages queue, put one sentinel per page worker, join the page
workers, join the movies queue, put one sentinel per movie worker, join
the movie workers. -/
inductive PipePhase
  | seeding (rest : List ℕ)
  | joinPages
  | putPageSent (k : ℕ)
  | joinPageWorkers
  | joinMovies
  | putMovieSent (k : ℕ)
  | joinMovieWorkers
  | finished
deriving DecidableEq, Repr

/-- Static configuration: pool sizes (10 and 18 in the source), the seeded
listing-page URLs, and the detail URLs each listing page yields after the
availability filter and deny-list. -/
structure PipeCfg where
  numPageWorkers : ℕ
  numMovieWorkers : ℕ
  pageUrls : List ℕ
  discover : ℕ → List ℕ

/-- Global state: both queues (buffer and unfinished-task count), both
worker pools, the coordinator phase, and two history variables: the
multiset of detail URLs processed by detail workers and the multiset of
detail URLs ever pushed onto the movies queue. -/
structure PipeSt where
  pagesItems : List QItem
  pagesUnf : ℕ
  moviesItems : List QItem
  moviesUnf : ℕ
  pworkers : Multiset PW
  mworkers : Multiset MW
  phase : PipePhase
  processed : Multiset ℕ
  discovered : Multiset ℕ

/-- Initial state: empty queues, all workers blocked on `get`, coordinator
about to seed. -/
def initSt (cfg : PipeCfg) : PipeSt :=
  { pagesItems := []
    pagesUnf := 0
    moviesItems := []
    moviesUnf := 0
    pworkers := Multiset.replicate cfg.numPageWorkers PW.pidle
    mworkers := Multiset.replicate cfg.numMovieWorkers MW.midle
    phase := PipePhase.seeding cfg.pageUrls
    processed := 0
    discovered := 0 }

/-- One interleaved step of the pipeline: a coordinator action or an
action of one worker picked from a pool. -/
inductive PipeStep (cfg : PipeCfg) : PipeSt → PipeSt → Prop
  | main_seed (s : PipeSt) (u : ℕ) (rest : List ℕ) :
      s.phase = PipePhase.seeding (u :: rest) →
      PipeStep cfg s { s with pagesItems := s.pagesItems ++ [QItem.urlItem u],
                              pagesUnf := s.pagesUnf + 1,
                              phase := PipePhase.seeding rest }
  | main_seed_done (s : PipeSt) :
      s.phase = PipePhase.seeding [] →
      PipeStep cfg s { s with phase := PipePhase.joinPages }
  | main_join_pages (s : PipeSt) :
      s.phase = PipePhase.joinPages → s.pagesUnf = 0 →
      PipeStep cfg s { s with phase := PipePhase.putPageSent cfg.numPageWorkers }
  | main_put_page_sent (s : PipeSt) (k : ℕ) :
      s.phase = PipePhase.putPageSent (k + 1) →
      PipeStep cfg s { s with pagesItems := s.pagesItems ++ [QItem.sentinel],
                              pagesUnf := s.pagesUnf + 1,
                              phase := PipePhase.putPageSent k }
  | main_put_page_sent_done (s : PipeSt) :
      s.phase = PipePhase.putPageSent 0 →
      PipeStep cfg s { s with phase := PipePhase.joinPageWorkers }
  | main_join_page_workers (s : PipeSt) :
      s.phase = PipePhase.joinPageWorkers →
      s.pworkers = Multiset.replicate cfg.numPageWorkers PW.pdone →
      PipeStep cfg s { s with phase := PipePhase.joinMovies }
  | main_join_movies (s : PipeSt) :
      s.phase = PipePhase.joinMovies → s.moviesUnf = 0 →
      PipeStep cfg s { s with phase := PipePhase.putMovieSent cfg.numMovieWorkers }
  | main_put_movie_sent (s : PipeSt) (k : ℕ) :
      s.phase = PipePhase.putMovieSent (k + 1) →
      PipeStep cfg s { s with moviesItems := s.moviesItems ++ [QItem.sentinel],
                              moviesUnf := s.moviesUnf + 1,
                              phase := PipePhase.putMovieSent k }
  | main_put_movie_sent_done (s : PipeSt) :
      s.phase = PipePhase.putMovieSent 0 →
      PipeStep cfg s { s with phase := PipePhase.joinMovieWorkers }
  | main_join_movie_workers (s : PipeSt) :
      s.phase = PipePhase.joinMovieWorkers →
      s.mworkers = Multiset.replicate cfg.numMovieWorkers MW.mdone →
      PipeStep cfg s { s with phase := PipePhase.finished }
  | pw_pop_url (s : PipeSt) (u : ℕ) (rest : List QItem) (pw : Multiset PW) :
      s.pworkers = PW.pidle ::ₘ pw → s.pagesItems = QItem.urlItem u :: rest →
      PipeStep cfg s { s with pagesItems := rest,
                              pworkers := PW.pworking (cfg.discover u) ::ₘ pw }
  | pw_pop_sent (s : PipeSt) (rest : List QItem) (pw : Multiset PW) :
      s.pworkers = PW.pidle ::ₘ pw → s.pagesItems = QItem.sentinel :: rest →
      PipeStep cfg s { s with pagesItems := rest, pworkers := PW.pdone ::ₘ pw }
  | pw_push (s : PipeSt) (v : ℕ) (vs : List ℕ) (pw : Multiset PW) :
      s.pworkers = PW.pworking (v :: vs) ::ₘ pw →
      PipeStep cfg s { s with moviesItems := s.moviesItems ++ [QItem.urlItem v],
                              moviesUnf := s.moviesUnf + 1,
                              discovered := v ::ₘ s.discovered,
                              pworkers := PW.pworking vs ::ₘ pw }
  | pw_task_done (s : PipeSt) (pw : Multiset PW) :
      s.pworkers = PW.pworking [] ::ₘ pw →
      PipeStep cfg s { s with pagesUnf := s.pagesUnf - 1,
                              pworkers := PW.pidle ::ₘ pw }
  | mw_pop_url (s : PipeSt) (u : ℕ) (rest : List QItem) (mw : Multiset MW) :
      s.mworkers = MW.midle ::ₘ mw → s.moviesItems = QItem.urlItem u :: rest →
      PipeStep cfg s { s with moviesItems := rest,
                              mworkers := MW.mworking u ::ₘ mw }
  | mw_pop_sent (s : PipeSt) (rest : List QItem) (mw : Multiset MW) :
      s.mworkers = MW.midle ::ₘ mw → s.moviesItems = QItem.sentinel :: rest →
      PipeStep cfg s { s with moviesItems := rest, mworkers := MW.mdone ::ₘ mw }
  | mw_finish (s : PipeSt) (u : ℕ) (mw : Multiset MW) :
      s.mworkers = MW.mworking u ::ₘ mw →
      PipeStep cfg s { s with processed := u ::ₘ s.processed,
                              moviesUnf := s.moviesUnf - 1,
                              mworkers := MW.midle ::ₘ mw }

/-- A state reachable from the initial state by interleaved steps. -/
def PipeReachable (cfg : PipeCfg) (s : PipeSt) : Prop :=
  Relation.ReflTransGen (PipeStep cfg) (initSt cfg) s

/-- Number of URL items in a queue buffer. -/
def urlCount (l : List QItem) : ℕ :=
  l.countP (fun i => match i with | QItem.urlItem _ => true | _ => false)

/-- Number of sentinels in a queue buffer. -/
def sentCount (l : List QItem) : ℕ :=
  l.countP (fun i => match i with | QItem.sentinel => true | _ => false)

/-- The multiset of URLs held in a queue buffer. -/
def msUrls (l : List QItem) : Multiset ℕ :=
  ((l.filterMap (fun i => match i with | QItem.urlItem u => some u | _ => none)) : List ℕ)

/-- The multiset of URLs currently being processed by detail workers. -/
def mwWorkingMS (m : Multiset MW) : Multiset ℕ :=
  m.bind (fun w => match w with | MW.mworking u => {u} | _ => 0)

/-- Number of detail workers currently processing (each processing worker
contributes exactly one URL to `mwWorkingMS`). -/
def mwWorkingCount (m : Multiset MW) : ℕ :=
  Multiset.card (mwWorkingMS m)

/-- Sentinels the coordinator has put onto the movies queue so far, as a
function of its phase. -/
def sentPut (cfg : PipeCfg) : PipePhase → ℕ
  | PipePhase.putMovieSent k => cfg.numMovieWorkers - k
  | PipePhase.joinMovieWorkers => cfg.numMovieWorkers
  | PipePhase.finished => cfg.numMovieWorkers
  | _ => 0

/-- The coordinator has already joined the page workers. -/
def afterJoinPageW : PipePhase → Prop
  | PipePhase.joinMovies => True
  | PipePhase.putMovieSent _ => True
  | PipePhase.joinMovieWorkers => True
  | PipePhase.finished => True
  | _ => False

/-- The coordinator has already joined the movies queue. -/
def afterJoinMovies : PipePhase → Prop
  | PipePhase.putMovieSent _ => True
  | PipePhase.joinMovieWorkers => True
  | PipePhase.finished => True
  | _ => False

theorem afterJoinPageW_of_afterJoinMovies {p : PipePhase} :
    afterJoinMovies p → afterJoinPageW p := by
  cases p <;> simp [afterJoinMovies, afterJoinPageW]

@[simp] theorem urlCount_nil : urlCount [] = 0 := rfl

@[simp] theorem urlCount_cons_url (u : ℕ) (l : List QItem) :
    urlCount (QItem.urlItem u :: l) = urlCount l + 1 := by
  simp [urlCount, List.countP_cons]

@[simp] theorem urlCount_cons_sent (l : List QItem) :
    urlCount (QItem.sentinel :: l) = urlCount l := by
  simp [urlCount, List.countP_cons]

@[simp] theorem urlCount_append_url (l : List QItem) (u : ℕ) :
    urlCount (l ++ [QItem.urlItem u]) = urlCount l + 1 := by
  simp [urlCount, List.countP_append, List.countP_cons]

@[simp] theorem urlCount_append_sent (l : List QItem) :
    urlCount (l ++ [QItem.sentinel]) = urlCount l := by
  simp [urlCount, List.countP_append, List.countP_cons]

@[simp] theorem sentCount_nil : sentCount [] = 0 := rfl

@[simp] theorem sentCount_cons_url (u : ℕ) (l : List QItem) :
    sentCount (QItem.urlItem u :: l) = sentCount l := by
  simp [sentCount, List.countP_cons]

@[simp] theorem sentCount_cons_sent (l : List QItem) :
    sentCount (QItem.sentinel :: l) = sentCount l + 1 := by
  simp [sentCount, List.countP_cons]

@[simp] theorem sentCount_append_url (l : List QItem) (u : ℕ) :
    sentCount (l ++ [QItem.urlItem u]) = sentCount l := by
  simp [sentCount, List.countP_append, List.countP_cons]

@[simp] theorem sentCount_append_sent (l : List QItem) :
    sentCount (l ++ [QItem.sentinel]) = sentCount l + 1 := by
  simp [sentCount, List.countP_append, List.countP_cons]

@[simp] theorem msUrls_nil : msUrls [] = 0 := rfl

@[simp] theorem msUrls_cons_url (u : ℕ) (l : List QItem) :
    msUrls (QItem.urlItem u :: l) = u ::ₘ msUrls l := by
  simp [msUrls]

@[simp] theorem msUrls_cons_sent (l : List QItem) :
    msUrls (QItem.sentinel :: l) = msUrls l := by
  simp [msUrls]

@[simp] theorem msUrls_append_url (l : List QItem) (u : ℕ) :
    msUrls (l ++ [QItem.urlItem u]) = u ::ₘ msUrls l := by
  simp [msUrls, List.filterMap_append]

@[simp] theorem msUrls_append_sent (l : List QItem) :
    msUrls (l ++ [QItem.sentinel]) = msUrls l := by
  simp [msUrls, List.filterMap_append]

@[simp] theorem mwWorkingMS_cons_idle (m : Multiset MW) :
    mwWorkingMS (MW.midle ::ₘ m) = mwWorkingMS m := by
  simp [mwWorkingMS]

@[simp] theorem mwWorkingMS_cons_done (m : Multiset MW) :
    mwWorkingMS (MW.mdone ::ₘ m) = mwWorkingMS m := by
  simp [mwWorkingMS]

@[simp] theorem mwWorkingMS_cons_working (u : ℕ) (m : Multiset MW) :
    mwWorkingMS (MW.mworking u ::ₘ m) = u ::ₘ mwWorkingMS m := by
  simp [mwWorkingMS, Multiset.singleton_add]

@[simp] theorem mwWorkingMS_replicate_idle (n : ℕ) :
    mwWorkingMS (Multiset.replicate n MW.midle) = 0 := by
  induction n with
  | zero => rfl
  | succ n ih => rw [Multiset.replicate_succ, mwWorkingMS_cons_idle, ih]

theorem msUrls_eq_zero_of_urlCount (l : List QItem) (h : urlCount l = 0) :
    msUrls l = 0 := by
  induction l with
  | nil => rfl
  | cons i l ih =>
    cases i with
    | urlItem u => simp at h
    | sentinel => simp at h ⊢; exact ih h

/-- The inductive invariant of the pipeline.  `acc` is conservation of
discovered URLs across the movies queue, the processing workers and the
processed history; `unf` is the meaning of the unfinished-task counter of
the movies queue; `pdone` says page workers are all gone once the
coordinator joined them; `sentPhase` says a sentinel can only have been
seen on the movies queue after the coordinator joined it; `drained` says
the movies queue holds no URLs, and no detail worker is mid-processing,
from that point on. -/
structure PipeInv (cfg : PipeCfg) (s : PipeSt) : Prop where
  acc : s.discovered = msUrls s.moviesItems + mwWorkingMS s.mworkers + s.processed
  unf : s.moviesUnf = urlCount s.moviesItems + mwWorkingCount s.mworkers + sentPut cfg s.phase
  kbound : ∀ k, s.phase = PipePhase.putMovieSent k → k ≤ cfg.numMovieWorkers
  pdone : afterJoinPageW s.phase → s.pworkers = Multiset.replicate cfg.numPageWorkers PW.pdone
  sentPhase : 0 < sentCount s.moviesItems ∨ MW.mdone ∈ s.mworkers → afterJoinMovies s.phase
  drained : afterJoinMovies s.phase →
    urlCount s.moviesItems = 0 ∧ mwWorkingCount s.mworkers = 0

theorem pipeInv_init (cfg : PipeCfg) : PipeInv cfg (initSt cfg) := by
  refine ⟨?_, ?_, ?_, ?_, ?_, ?_⟩
  · simp [initSt]
  · simp [initSt, mwWorkingCount, sentPut]
  · intro k hk
    exact PipePhase.noConfusion hk
  · intro hf
    exact hf.elim
  · intro hx
    rcases hx with hx | hx
    · simp [initSt] at hx
    · have := Multiset.eq_of_mem_replicate hx
      exact MW.noConfusion this
  · intro hf
    exact hf.elim

@[simp] theorem mwWorkingCount_cons_idle (m : Multiset MW) :
    mwWorkingCount (MW.midle ::ₘ m) = mwWorkingCount m := by
  simp [mwWorkingCount]

@[simp] theorem mwWorkingCount_cons_done (m : Multiset MW) :
    mwWorkingCount (MW.mdone ::ₘ m) = mwWorkingCount m := by
  simp [mwWorkingCount]

@[simp] theorem mwWorkingCount_cons_working (u : ℕ) (m : Multiset MW) :
    mwWorkingCount (MW.mworking u ::ₘ m) = mwWorkingCount m + 1 := by
  simp [mwWorkingCount]

theorem pipeInv_step {cfg : PipeCfg} {s s2 : PipeSt}
    (h : PipeInv cfg s) (st : PipeStep cfg s s2) : PipeInv cfg s2 := by
  obtain ⟨acc, unf, kb, pd, sp, dr⟩ := h
  cases st with
  | main_seed u rest hp =>
    rw [hp] at unf
    refine ⟨acc, ?_, ?_, ?_, ?_, ?_⟩
    · simpa [sentPut] using unf
    · intro k hk; exact PipePhase.noConfusion hk
    · intro hf; exact hf.elim
    · intro hx; have h2 := sp hx; rw [hp] at h2; exact h2.elim
    · intro hf; exact hf.elim
  | main_seed_done hp =>
    rw [hp] at unf
    refine ⟨acc, ?_, ?_, ?_, ?_, ?_⟩
    · simpa [sentPut] using unf
    · intro k hk; exact PipePhase.noConfusion hk
    · intro hf; exact hf.elim
    · intro hx; have h2 := sp hx; rw [hp] at h2; exact h2.elim
    · intro hf; exact hf.elim
  | main_join_pages hp hu =>
    rw [hp] at unf
    refine ⟨acc, ?_, ?_, ?_, ?_, ?_⟩
    · simpa [sentPut] using unf
    · intro k hk; exact PipePhase.noConfusion hk
    · intro hf; exact hf.elim
    · intro hx; have h2 := sp hx; rw [hp] at h2; exact h2.elim
    · intro hf; exact hf.elim
  | main_put_page_sent k hp =>
    rw [hp] at unf
    refine ⟨acc, ?_, ?_, ?_, ?_, ?_⟩
    · simpa [sentPut] using unf
    · intro k2 hk; exact PipePhase.noConfusion hk
    · intro hf; exact hf.elim
    · intro hx; have h2 := sp hx; rw [hp] at h2; exact h2.elim
    · intro hf; exact hf.elim
  | main_put_page_sent_done hp =>
    rw [hp] at unf
    refine ⟨acc, ?_, ?_, ?_, ?_, ?_⟩
    · simpa [sentPut] using unf
    · intro k hk; exact PipePhase.noConfusion hk
    · intro hf; exact hf.elim
    · intro hx; have h2 := sp hx; rw [hp] at h2; exact h2.elim
    · intro hf; exact hf.elim
  | main_join_page_workers hp hw =>
    rw [hp] at unf
    refine ⟨acc, ?_, ?_, ?_, ?_, ?_⟩
    · simpa [sentPut] using unf
    · intro k hk; exact PipePhase.noConfusion hk
    · intro _; exact hw
    · intro hx; have h2 := sp hx; rw [hp] at h2; exact h2.elim
    · intro hf; exact hf.elim
  | main_join_movies hp hu =>
    rw [hp] at unf
    simp only [sentPut] at unf
    have h1 : urlCount s.moviesItems = 0 := by omega
    have h2 : mwWorkingCount s.mworkers = 0 := by omega
    refine ⟨acc, ?_, ?_, ?_, ?_, ?_⟩
    · simp [sentPut]; omega
    · intro k hk; cases hk; exact Nat.le_refl _
    · intro _; exact pd (by rw [hp]; trivial)
    · intro _; trivial
    · intro _; exact ⟨h1, h2⟩
  | main_put_movie_sent k hp =>
    have hk1 : k + 1 ≤ cfg.numMovieWorkers := kb (k + 1) hp
    have hdr := dr (by rw [hp]; trivial)
    rw [hp] at unf
    refine ⟨?_, ?_, ?_, ?_, ?_, ?_⟩
    · dsimp only; rw [msUrls_append_sent]; exact acc
    · dsimp only
      rw [urlCount_append_sent]
      simp only [sentPut] at unf ⊢
      omega
    · intro k2 hk2; cases hk2; omega
    · intro _; exact pd (by rw [hp]; trivial)
    · intro _; trivial
    · intro _
      dsimp only
      rw [urlCount_append_sent]
      exact hdr
  | main_put_movie_sent_done hp =>
    rw [hp] at unf
    refine ⟨acc, ?_, ?_, ?_, ?_, ?_⟩
    · simpa [sentPut] using unf
    · intro k hk; exact PipePhase.noConfusion hk
    · intro _; exact pd (by rw [hp]; trivial)
    · intro _; trivial
    · intro _; exact dr (by rw [hp]; trivial)
  | main_join_movie_workers hp hw =>
    rw [hp] at unf
    refine ⟨acc, ?_, ?_, ?_, ?_, ?_⟩
    · simpa [sentPut] using unf
    · intro k hk; exact PipePhase.noConfusion hk
    · intro _; exact pd (by rw [hp]; trivial)
    · intro _; trivial
    · intro _; exact dr (by rw [hp]; trivial)
  | pw_pop_url u rest pw hpw hpi =>
    have hmem : PW.pidle ∈ s.pworkers := by
      rw [hpw]; exact Multiset.mem_cons_self _ _
    have hnj : ¬ afterJoinPageW s.phase := fun hf => by
      rw [pd hf] at hmem
      exact PW.noConfusion (Multiset.eq_of_mem_replicate hmem)
    exact ⟨acc, unf, kb, fun hf => (hnj hf).elim, sp, dr⟩
  | pw_pop_sent rest pw hpw hpi =>
    have hmem : PW.pidle ∈ s.pworkers := by
      rw [hpw]; exact Multiset.mem_cons_self _ _
    have hnj : ¬ afterJoinPageW s.phase := fun hf => by
      rw [pd hf] at hmem
      exact PW.noConfusion (Multiset.eq_of_mem_replicate hmem)
    exact ⟨acc, unf, kb, fun hf => (hnj hf).elim, sp, dr⟩
  | pw_push v vs pw hpw =>
    have hmem : PW.pworking (v :: vs) ∈ s.pworkers := by
      rw [hpw]; exact Multiset.mem_cons_self _ _
    have hnj : ¬ afterJoinPageW s.phase := fun hf => by
      rw [pd hf] at hmem
      exact PW.noConfusion (Multiset.eq_of_mem_replicate hmem)
    refine ⟨?_, ?_, kb, ?_, ?_, ?_⟩
    · dsimp only
      rw [msUrls_append_url, acc]
      simp [Multiset.cons_add]
    · dsimp only
      rw [urlCount_append_url, unf]
      omega
    · intro hf; exact (hnj hf).elim
    · intro hx
      dsimp only at hx
      rw [sentCount_append_url] at hx
      exact sp hx
    · intro hf; exact (hnj (afterJoinPageW_of_afterJoinMovies hf)).elim
  | pw_task_done pw hpw =>
    have hmem : PW.pworking [] ∈ s.pworkers := by
      rw [hpw]; exact Multiset.mem_cons_self _ _
    have hnj : ¬ afterJoinPageW s.phase := fun hf => by
      rw [pd hf] at hmem
      exact PW.noConfusion (Multiset.eq_of_mem_replicate hmem)
    exact ⟨acc, unf, kb, fun hf => (hnj hf).elim, sp, dr⟩
  | mw_pop_url u rest mw hmw hmi =>
    have hnm : ¬ afterJoinMovies s.phase := fun hf => by
      have h2 := (dr hf).1
      rw [hmi] at h2
      simp at h2
    rw [hmi, hmw] at acc unf
    refine ⟨?_, ?_, kb, pd, ?_, ?_⟩
    · dsimp only
      rw [msUrls_cons_url] at acc
      rw [mwWorkingMS_cons_idle] at acc
      rw [acc]
      simp [Multiset.cons_add, Multiset.add_cons]
    · dsimp only
      simp only [urlCount_cons_url, mwWorkingCount_cons_idle] at unf
      simp only [mwWorkingCount_cons_working]
      omega
    · intro hx
      dsimp only at hx
      apply sp
      rcases hx with hx | hx
      · exact Or.inl (by rw [hmi]; simpa using hx)
      · rcases Multiset.mem_cons.mp hx with h2 | h2
        · exact MW.noConfusion h2
        · exact Or.inr (by rw [hmw]; exact Multiset.mem_cons_of_mem h2)
    · intro hf; exact (hnm hf).elim
  | mw_pop_sent rest mw hmw hmi =>
    have hjm : afterJoinMovies s.phase := sp (Or.inl (by rw [hmi]; simp))
    obtain ⟨hd1, hd2⟩ := dr hjm
    rw [hmi] at hd1
    rw [hmw] at hd2
    rw [hmi, hmw] at acc unf
    refine ⟨?_, ?_, kb, pd, ?_, ?_⟩
    · dsimp only
      simpa using acc
    · dsimp only
      simpa using unf
    · intro _; exact hjm
    · intro _
      refine ⟨by simpa using hd1, by simpa using hd2⟩
  | mw_finish u mw hmw =>
    have hnm : ¬ afterJoinMovies s.phase := fun hf => by
      have h2 := (dr hf).2
      rw [hmw] at h2
      simp at h2
    rw [hmw] at acc unf
    refine ⟨?_, ?_, kb, pd, ?_, ?_⟩
    · dsimp only
      rw [mwWorkingMS_cons_working] at acc
      rw [acc]
      simp [Multiset.cons_add, Multiset.add_cons]
    · dsimp only
      simp only [mwWorkingCount_cons_working] at unf
      simp only [mwWorkingCount_cons_idle]
      omega
    · intro hx
      dsimp only at hx
      apply sp
      rcases hx with hx | hx
      · exact Or.inl hx
      · rcases Multiset.mem_cons.mp hx with h2 | h2
        · exact MW.noConfusion h2
        · exact Or.inr (by rw [hmw]; exact Multiset.mem_cons_of_mem h2)
    · intro hf; exact (hnm hf).elim

theorem pipeInv_reachable {cfg : PipeCfg} {s : PipeSt}
    (h : PipeReachable cfg s) : PipeInv cfg s := by
  induction h with
  | refl => exact pipeInv_init cfg
  | tail hab hbc ih => exact pipeInv_step ih hbc

/-- C3: in every run of the coordinator's two-phase shutdown sequence,
whenever a detail worker has shut down (popped a sentinel), every detail
URL discovered by any listing worker has been processed by a detail
worker: the processed multiset equals the discovered multiset. -/
theorem claim_C3 (cfg : PipeCfg) (s : PipeSt)
    (h : PipeReachable cfg s) (hd : MW.mdone ∈ s.mworkers) :
    s.processed = s.discovered := by
  have inv := pipeInv_reachable h
  have hjm : afterJoinMovies s.phase := inv.sentPhase (Or.inr hd)
  obtain ⟨h1, h2⟩ := inv.drained hjm
  have hms : mwWorkingMS s.mworkers = 0 :=
    Multiset.card_eq_zero.mp (by simpa [mwWorkingCount] using h2)
  have hmu : msUrls s.moviesItems = 0 := msUrls_eq_zero_of_urlCount _ h1
  rw [inv.acc, hms, hmu]
  simp

/-- A concrete configuration: one listing worker, one detail worker, one
listing page yielding one detail URL. -/
def witCfg : PipeCfg :=
  { numPageWorkers := 1
    numMovieWorkers := 1
    pageUrls := [1]
    discover := fun _ => [10] }

/-- Witness for C3: a full concrete execution of the pipeline reaching a
state with a shut-down detail worker, at which the theorem applies. -/
theorem claim_C3_witness :
    ∃ s : PipeSt, PipeReachable witCfg s ∧ MW.mdone ∈ s.mworkers ∧
      s.processed = s.discovered := by
  have h0 : PipeReachable witCfg (initSt witCfg) := Relation.ReflTransGen.refl
  have h1 := Relation.ReflTransGen.tail h0 (PipeStep.main_seed _ 1 [] rfl)
  have h2 := Relation.ReflTransGen.tail h1 (PipeStep.main_seed_done _ rfl)
  have h3 := Relation.ReflTransGen.tail h2 (PipeStep.pw_pop_url _ 1 [] 0 rfl rfl)
  have h4 := Relation.ReflTransGen.tail h3 (PipeStep.pw_push _ 10 [] 0 rfl)
  have h5 := Relation.ReflTransGen.tail h4 (PipeStep.pw_task_done _ 0 rfl)
  have h6 := Relation.ReflTransGen.tail h5 (PipeStep.mw_pop_url _ 10 [] 0 rfl rfl)
  have h7 := Relation.ReflTransGen.tail h6 (PipeStep.mw_finish _ 10 0 rfl)
  have h8 := Relation.ReflTransGen.tail h7 (PipeStep.main_join_pages _ rfl rfl)
  have h9 := Relation.ReflTransGen.tail h8 (PipeStep.main_put_page_sent _ 0 rfl)
  have h10 := Relation.ReflTransGen.tail h9 (PipeStep.main_put_page_sent_done _ rfl)
  have h11 := Relation.ReflTransGen.tail h10 (PipeStep.pw_pop_sent _ [] 0 rfl rfl)
  have h12 := Relation.ReflTransGen.tail h11 (PipeStep.main_join_page_workers _ rfl rfl)
  have h13 := Relation.ReflTransGen.tail h12 (PipeStep.main_join_movies _ rfl rfl)
  have h14 := Relation.ReflTransGen.tail h13 (PipeStep.main_put_movie_sent _ 0 rfl)
  have h15 := Relation.ReflTransGen.tail h14 (PipeStep.main_put_movie_sent_done _ rfl)
  have h16 := Relation.ReflTransGen.tail h15 (PipeStep.mw_pop_sent _ [] 0 rfl rfl)
  refine ⟨_, h16, ?_, claim_C3 witCfg _ h16 ?_⟩
  · decide
  · decide

/-- C4 (documenting the source bug): the precise-date branch of the date
normalizer parses day and month with the current year; with current date
2024-01-10 the label woensdag 27 mei yields 2024-05-27, but with current
date 2024-06-10 — where the claim requires the returned date to lie in the
following year — the source increments its local year variable and then
re-parses the original, unmodified date string, so it again returns
2024-05-27: a date strictly before the current date, and strictly before
the following-year date 2025-05-27 required by the claim. -/
theorem claim_C4 :
    normalize_date (toOrdinal 2024 1 10) ⟨2024, toOrdinal 2024 1 10, 720⟩
        "woensdag 27 mei" = Except.ok (toOrdinal 2024 5 27) ∧
    normalize_date (toOrdinal 2024 6 10) ⟨2024, toOrdinal 2024 6 10, 720⟩
        "woensdag 27 mei" = Except.ok (toOrdinal 2024 5 27) ∧
    toOrdinal 2024 5 27 < toOrdinal 2024 6 10 ∧
    toOrdinal 2024 5 27 < toOrdinal 2025 5 27 :=
  ⟨rfl, rfl, by decide, by decide⟩

/-- C7 counterexample: the release-date extractor applied to a document
whose release-date element is absent (the xpath string query yields the
empty string) does not return None or an empty result — it raises
`AttributeError` by calling `.groups()` on a failed match. -/
theorem counterexample_C7 :
    get_movie_release_date "" = Except.error PyErr.attributeError := rfl

/-- C7 (amended): every field extractor except the release-date extractor
returns None or an empty result when the element it queries is absent;
the release-date extractor fails with `AttributeError` on absence. -/
theorem claim_C7 :
    get_movie_special "" = Except.ok none ∧
    get_movie_title "" "" = "" ∧
    (∀ gs, get_movie_genres gs "" = Except.ok none) ∧
    get_movie_duration "" = none ∧
    (∀ gs, get_movie_language gs "" = Except.ok none) ∧
    get_movie_restrictions [] = Except.ok [] ∧
    get_movie_technologies "" = Except.ok none ∧
    get_movie_rating "" = Except.ok none ∧
    get_movie_directors_cast [] = Except.ok ([], []) ∧
    get_movie_release_date "" = Except.error PyErr.attributeError :=
  ⟨rfl, rfl, fun _ => rfl, rfl, fun _ => rfl, rfl, rfl, rfl, rfl, rfl⟩

/-- C8 counterexample: the icon path /x.png matches no known naming
convention, yet the extractor does not fail with ParseError: the
non-matching path is silently skipped and an empty result is returned. -/
theorem counterexample_C8 :
    get_movie_restrictions ["/x.png"] = Except.ok [] := rfl

/-- C8 (amended): the kijkwijzer-12 icon path maps to tag 12 and the
rating-onbekend-z icon path to tag unknown; an icon path inside the
kijkwijzer directory with an unrecognized base name fails with ParseError,
while a path not matching the directory pattern at all is silently
skipped without an error. -/
theorem claim_C8 :
    get_movie_restrictions ["/themes/main/gfx/icons/kijkwijzer/kijkwijzer-12.png"] =
      Except.ok ["12"] ∧
    get_movie_restrictions ["/themes/main/gfx/icons/kijkwijzer/rating-onbekend-z.png"] =
      Except.ok ["unknown"] ∧
    get_movie_restrictions ["/themes/main/gfx/icons/kijkwijzer/foobar.png"] =
      Except.error PyErr.parseError ∧
    get_movie_restrictions ["/x.png"] = Except.ok [] :=
  ⟨rfl, rfl, rfl, rfl⟩

/-- C9 counterexample: supplying both a title and an id is not rejected:
with a search oracle resolving every title to id 5 and a rating oracle
giving 9, the call with title t and id 7 silently resolves through the
title (the id 7 is ignored) instead of raising an error. -/
theorem counterexample_C9 :
    get_movie_imdb_rating (fun _ => some 5) (fun s => TransResult.ok s)
      (fun _ => some 9) (some "t") (some 7) = Except.ok (5, some 9) := rfl

/-- C9 (amended): supplying neither title nor id raises an explicit
RuntimeError; supplying both is not rejected — the title branch is taken
and the id is silently ignored; with only an id the detail page for that
id is fetched directly. -/
theorem claim_C9 :
    (∀ (search : String → Option ℕ) (gs : String → TransResult)
        (ratingOf : ℕ → Option ℚ),
      get_movie_imdb_rating search gs ratingOf none none =
        Except.error PyErr.runtimeError) ∧
    (∀ (search : String → Option ℕ) (gs : String → TransResult)
        (ratingOf : ℕ → Option ℚ) (t : String) (i : ℕ),
      get_movie_imdb_rating search gs ratingOf (some t) (some i) =
        get_movie_imdb_rating search gs ratingOf (some t) none) ∧
    (∀ (search : String → Option ℕ) (gs : String → TransResult)
        (ratingOf : ℕ → Option ℚ) (i : ℕ),
      get_movie_imdb_rating search gs ratingOf none (some i) =
        Except.ok (i, ratingOf i)) :=
  ⟨fun _ _ _ => rfl, fun _ _ _ _ _ => rfl, fun _ _ _ _ => rfl⟩

/-- C10 counterexample: a transport-level failure of the translation call
that is not an `urllib.error.HTTPError` propagates to the caller instead
of returning the original input. -/
theorem counterexample_C10 :
    nl_to_en (fun _ => TransResult.otherFailure) "tekst" =
      Except.error PyErr.uncaughtException := rfl

/-- C10 (amended): the translation adapter returns the original input
unchanged when the external call fails with `urllib.error.HTTPError` (and
passes a successful translation through); any other failure of the call
propagates to the caller. -/
theorem claim_C10 :
    (∀ text, nl_to_en (fun _ => TransResult.httpError) text = Except.ok text) ∧
    (∀ text r, nl_to_en (fun _ => TransResult.ok r) text = Except.ok r) ∧
    (∀ text, nl_to_en (fun _ => TransResult.otherFailure) text =
      Except.error PyErr.uncaughtException) :=
  ⟨fun _ => rfl, fun _ _ => rfl, fun _ => rfl⟩

theorem ratingPasses_some_iff (r : ℚ) : ratingPasses (some r) = true ↔ 8 < r := by
  simp only [ratingPasses, Bool.and_eq_true, decide_eq_true_eq]
  constructor
  · exact fun h => h.2
  · exact fun h => ⟨ne_of_gt (by linarith), h⟩

theorem c1_iff (search : String → Option ℕ) (gs : String → TransResult)
    (ratingOf : ℕ → Option ℚ) (url : String) (doc : MovieDoc) :
    (∃ rec, process_movie_step search gs ratingOf url doc = Except.ok (some rec)) ↔
    (∃ i r, resolvedRating search gs ratingOf url doc = some (i, r) ∧ 8 < r) := by
  unfold process_movie_step resolvedRating
  rcases hu : patheUrlMatch url.toList with _ | m
  · simp [hu, Bind.bind, Except.bind, Pure.pure, Except.pure,
      throw, throwThe, MonadExceptOf.throw]
  · rcases hs : get_movie_special doc.specialString with e | sp
    · simp [hu, hs, Bind.bind, Except.bind, Pure.pure, Except.pure]
    · rcases hsk : specialSkipped sp with _ | _
      · rcases hr : get_movie_imdb_rating search gs ratingOf
            (some (get_movie_title doc.titleH1 doc.titleAlt)) none with e2 | ⟨i, rat⟩
        · cases e2 <;>
            simp [hu, hs, hsk, hr, Bind.bind, Except.bind, Pure.pure, Except.pure,
              ratingPasses, throw, throwThe, MonadExceptOf.throw]
        · rcases rat with _ | r
          · simp [hu, hs, hsk, hr, Bind.bind, Except.bind, Pure.pure, Except.pure,
              ratingPasses]
          · by_cases h8 : 8 < r
            · simp [hu, hs, hsk, hr, Bind.bind, Except.bind, Pure.pure, Except.pure,
                (ratingPasses_some_iff r).mpr h8, h8]
              exact ⟨i, r, ⟨rfl, rfl⟩, h8⟩
            · have hrp : ratingPasses (some r) = false := by
                rcases hb : ratingPasses (some r) with _ | _
                · rfl
                · exact absurd ((ratingPasses_some_iff r).mp hb) h8
              simp [hu, hs, hsk, hr, Bind.bind, Except.bind, Pure.pure, Except.pure,
                hrp]
              exact le_of_not_lt h8
      · simp [hu, hs, hsk, Bind.bind, Except.bind, Pure.pure, Except.pure]

/-- Search oracle resolving every title to IMDB id 5. -/
def demoSearch : String → Option ℕ := fun _ => some 5

/-- Translation oracle that translates every text to itself. -/
def demoGs : String → TransResult := fun s => TransResult.ok s

/-- A well-formed detail-page URL. -/
def demoUrl : String := "http://www.pathe.nl/film/123/some-movie"

/-- A detail page with no special status. -/
def demoDoc : MovieDoc := ⟨"", "A Movie", ""⟩

theorem c1_pass (ratq : ℚ) :
    process_movie_step demoSearch demoGs (fun _ => some ratq) demoUrl demoDoc =
      if ratingPasses (some ratq) then
        Except.ok (some (demoUrl, "http://imdb.com/title/tt5"))
      else Except.ok none := rfl

/-- C1: a ResultRecord is appended iff an external rating was resolved and
is strictly greater than 8; concretely, a resolved rating of exactly 8 is
excluded, 8.1 is included, and an absent rating produces no record. -/
theorem claim_C1 :
    (∀ (search : String → Option ℕ) (gs : String → TransResult)
        (ratingOf : ℕ → Option ℚ) (url : String) (doc : MovieDoc),
      (∃ rec, process_movie_step search gs ratingOf url doc = Except.ok (some rec)) ↔
      (∃ i r, resolvedRating search gs ratingOf url doc = some (i, r) ∧ 8 < r)) ∧
    process_movie_step demoSearch demoGs (fun _ => some 8) demoUrl demoDoc =
      Except.ok none ∧
    process_movie_step demoSearch demoGs (fun _ => some (81 / 10)) demoUrl demoDoc =
      Except.ok (some (demoUrl, "http://imdb.com/title/tt5")) ∧
    process_movie_step demoSearch demoGs (fun _ => none) demoUrl demoDoc =
      Except.ok none := by
  refine ⟨c1_iff, ?_, ?_, rfl⟩
  · rw [c1_pass]
    have h : ratingPasses (some 8) = false := by decide
    rw [h]
    simp
  · rw [c1_pass]
    have h : ratingPasses (some (81 / 10)) = true :=
      (ratingPasses_some_iff _).mpr (by norm_num)
    rw [h]
    simp

/-- C2: a movie whose extracted special-status tag is in the skip-set is
discarded right after that extraction: it yields no ResultRecord, and the
outcome does not depend on the title fields of the page or on the rating
oracles — no title extraction or rating resolution is observable. -/
theorem claim_C2 (search search2 : String → Option ℕ) (gs gs2 : String → TransResult)
    (ratingOf ratingOf2 : ℕ → Option ℚ) (url : String) (doc doc2 : MovieDoc)
    (sp : String)
    (h1 : get_movie_special doc.specialString = Except.ok (some sp))
    (h2 : sp ∈ SKIP_SPECIAL)
    (h3 : doc2.specialString = doc.specialString) :
    (process_movie_step search gs ratingOf url doc = Except.ok none ∨
     process_movie_step search gs ratingOf url doc = Except.error PyErr.attributeError) ∧
    process_movie_step search gs ratingOf url doc =
      process_movie_step search2 gs2 ratingOf2 url doc2 := by
  have hsk : specialSkipped (some sp) = true := by
    simp [specialSkipped]
    exact h2
  unfold process_movie_step
  rcases hu : patheUrlMatch url.toList with _ | m
  · constructor
    · right
      simp [hu, Bind.bind, Except.bind, throw, throwThe, MonadExceptOf.throw]
    · simp [hu, Bind.bind, Except.bind, throw, throwThe, MonadExceptOf.throw]
  · constructor
    · left
      simp [hu, h1, hsk, Bind.bind, Except.bind, Pure.pure, Except.pure]
    · rw [h3]
      simp [hu, h1, hsk, Bind.bind, Except.bind, Pure.pure, Except.pure]

/-- A detail page carrying the special status PathéOpera. -/
def operaDoc : MovieDoc := ⟨"Special:PathéOpera", "A Movie", ""⟩

/-- The same special status with different title fields. -/
def operaDoc2 : MovieDoc := ⟨"Special:PathéOpera", "Other Title", "Alt"⟩

/-- Witness for C2 at a concrete skip-set page: the hypotheses hold and
the instantiated conclusion follows by applying the theorem. -/
theorem claim_C2_witness :
    (get_movie_special operaDoc.specialString = Except.ok (some "PathéOpera") ∧
     "PathéOpera" ∈ SKIP_SPECIAL ∧
     operaDoc2.specialString = operaDoc.specialString) ∧
    ((process_movie_step demoSearch demoGs (fun _ => some 9) demoUrl operaDoc =
        Except.ok none ∨
      process_movie_step demoSearch demoGs (fun _ => some 9) demoUrl operaDoc =
        Except.error PyErr.attributeError) ∧
     process_movie_step demoSearch demoGs (fun _ => some 9) demoUrl operaDoc =
       process_movie_step (fun _ => none) (fun _ => TransResult.otherFailure)
         (fun _ => none) demoUrl operaDoc2) :=
  ⟨⟨rfl, by decide, rfl⟩,
    claim_C2 demoSearch (fun _ => none) demoGs (fun _ => TransResult.otherFailure)
      (fun _ => some 9) (fun _ => none) demoUrl operaDoc operaDoc2 "PathéOpera"
      rfl (by decide) rfl⟩

theorem next_weekday_spec (today i : ℕ) (h : i < 7) :
    today + 1 ≤ next_weekday today i ∧ next_weekday today i ≤ today + 7 ∧
    ordWeekday (next_weekday today i) = i := by
  unfold next_weekday ordWeekday
  dsimp only
  have hm : (today + 6) % 7 < 7 := Nat.mod_lt _ (by norm_num)
  split_ifs with h1 <;>
    refine ⟨?_, ?_, ?_⟩ <;> omega

/-- C5: the date normalizer maps vandaag to the current date, morgen to
the next day, and any weekday name to a date strictly in the future — 1
to 7 days ahead — whose weekday index equals that of the label. -/
theorem claim_C5 (today : ℕ) (now : PyNow) :
    normalize_date today now "vandaag" = Except.ok today ∧
    normalize_date today now "morgen" = Except.ok (today + 1) ∧
    ∀ w, w ∈ DAYS_OF_WEEK →
      ∃ d, normalize_date today now w = Except.ok d ∧
        today + 1 ≤ d ∧ d ≤ today + 7 ∧
        ordWeekday d = DAYS_OF_WEEK.indexOf w := by
  refine ⟨rfl, rfl, ?_⟩
  intro w hw
  simp only [DAYS_OF_WEEK, List.mem_cons, List.not_mem_nil, or_false] at hw
  rcases hw with rfl | rfl | rfl | rfl | rfl | rfl | rfl
  · exact ⟨_, rfl, (next_weekday_spec today 0 (by norm_num)).1,
      (next_weekday_spec today 0 (by norm_num)).2.1,
      (next_weekday_spec today 0 (by norm_num)).2.2⟩
  · exact ⟨_, rfl, (next_weekday_spec today 1 (by norm_num)).1,
      (next_weekday_spec today 1 (by norm_num)).2.1,
      (next_weekday_spec today 1 (by norm_num)).2.2⟩
  · exact ⟨_, rfl, (next_weekday_spec today 2 (by norm_num)).1,
      (next_weekday_spec today 2 (by norm_num)).2.1,
      (next_weekday_spec today 2 (by norm_num)).2.2⟩
  · exact ⟨_, rfl, (next_weekday_spec today 3 (by norm_num)).1,
      (next_weekday_spec today 3 (by norm_num)).2.1,
      (next_weekday_spec today 3 (by norm_num)).2.2⟩
  · exact ⟨_, rfl, (next_weekday_spec today 4 (by norm_num)).1,
      (next_weekday_spec today 4 (by norm_num)).2.1,
      (next_weekday_spec today 4 (by norm_num)).2.2⟩
  · exact ⟨_, rfl, (next_weekday_spec today 5 (by norm_num)).1,
      (next_weekday_spec today 5 (by norm_num)).2.1,
      (next_weekday_spec today 5 (by norm_num)).2.2⟩
  · exact ⟨_, rfl, (next_weekday_spec today 6 (by norm_num)).1,
      (next_weekday_spec today 6 (by norm_num)).2.1,
      (next_weekday_spec today 6 (by norm_num)).2.2⟩

/-- Witness for C5 at the weekday label vrijdag and a concrete current
date, applying the theorem with its membership hypothesis discharged. -/
theorem claim_C5_witness :
    "vrijdag" ∈ DAYS_OF_WEEK ∧
    ∃ d, normalize_date 739000 ⟨2024, 739000, 10⟩ "vrijdag" = Except.ok d ∧
      739000 + 1 ≤ d ∧ d ≤ 739000 + 7 ∧
      ordWeekday d = DAYS_OF_WEEK.indexOf "vrijdag" :=
  ⟨by decide, (claim_C5 739000 ⟨2024, 739000, 10⟩).2.2 "vrijdag" (by decide)⟩


theorem titleStrip_none (l : List Char) (h : '(' ∉ l) :
    ∀ pre, titleStrip pre l = none := by
  induction l with
  | nil => intro pre; rfl
  | cons c suf ih =>
    intro pre
    have hsuf : '(' ∉ suf := fun hm => h (List.mem_cons_of_mem _ hm)
    have htm : titleTailMatches (c :: suf) = false := by
      simp only [titleTailMatches, Bool.and_eq_false_iff]
      cases suf with
      | nil => simp
      | cons a t =>
        have ha : a ≠ '(' := fun he =>
          hsuf (he ▸ List.mem_cons_self a t)
        simp [ha]
    unfold titleStrip
    rw [ih hsuf (pre ++ [c]), htm]
    simp

theorem titleStrip_paren (n : List Char) (hn : '(' ∉ n) (pre : List Char) :
    titleStrip pre ('(' :: (n ++ [')'])) = none := by
  have h1 : '(' ∉ n ++ [')'] := by
    intro hm
    rcases List.mem_append.mp hm with hm | hm
    · exact hn hm
    · simp at hm
  unfold titleStrip
  rw [titleStrip_none (n ++ [')']) h1 (pre ++ ['('])]
  have htm : titleTailMatches ('(' :: (n ++ [')'])) = false := by
    simp [titleTailMatches, isPySpace]
  rw [htm]
  simp

theorem titleStrip_strips (n : List Char) (hn1 : '\n' ∉ n) (hn2 : '(' ∉ n) :
    ∀ (t pre : List Char), '\n' ∉ t → '\n' ∉ pre →
      titleStrip pre (t ++ (' ' :: '(' :: (n ++ [')']))) = some (pre ++ t) := by
  intro t
  induction t with
  | nil =>
    intro pre _ hpre
    show titleStrip pre (' ' :: '(' :: (n ++ [')'])) = some (pre ++ [])
    unfold titleStrip
    rw [titleStrip_paren n hn2 (pre ++ [' '])]
    have hall : pre.all (fun x => x != '\n') = true := by
      simp only [List.all_eq_true, bne_iff_ne, ne_eq]
      exact fun c hc he => hpre (he ▸ hc)
    have htm : titleTailMatches (' ' :: '(' :: (n ++ [')'])) = true := by
      have hlast : ('(' :: (n ++ [')'])).getLast? = some ')' := by
        rw [show ('(' :: (n ++ [')'])) = ('(' :: n) ++ [')'] by simp]
        exact List.getLast?_concat _
      have hmid : (n ++ [')']).dropLast = n := List.dropLast_concat
      have hni : n.all (fun c => c != '\n') = true := by
        simp only [List.all_eq_true, bne_iff_ne, ne_eq]
        exact fun c hc he => hn1 (he ▸ hc)
      have hend : titleEndMatches ('(' :: (n ++ [')'])) = true := by
        unfold titleEndMatches
        dsimp only
        simp [hlast, hmid, hni]
      simp [titleTailMatches, hend, isPySpace]
    rw [hall, htm]
    simp
  | cons c t2 ih =>
    intro pre ht hpre
    have hc : c ≠ '\n' := fun he => ht (he ▸ List.mem_cons_self c t2)
    have ht2 : '\n' ∉ t2 := fun hm => ht (List.mem_cons_of_mem _ hm)
    have hpre2 : '\n' ∉ pre ++ [c] := by
      intro hm
      rcases List.mem_append.mp hm with hm | hm
      · exact hpre hm
      · simp at hm; exact hc hm.symm
    show titleStrip pre (c :: (t2 ++ (' ' :: '(' :: (n ++ [')'])))) = _
    unfold titleStrip
    rw [ih (pre ++ [c]) ht2 hpre2]
    simp

theorem getLast?_cons_ne_nil (c : Char) {l : List Char} (h : l ≠ []) :
    (c :: l).getLast? = l.getLast? := by
  cases l with
  | nil => exact absurd rfl h
  | cons a t => rw [List.getLast?_cons_cons]

theorem dropLast_cons_ne_nil (c : Char) {l : List Char} (h : l ≠ []) :
    (c :: l).dropLast = c :: l.dropLast := by
  cases l with
  | nil => exact absurd rfl h
  | cons a t => rfl

/-- Ending in a closing parenthesis at the dollar anchor — either as the
last character or followed by one final newline — is preserved by
prepending a character. -/
theorem endsParen_cons (c : Char) (suf : List Char)
    (h : suf.getLast? = some ')' ∨
      (suf.getLast? = some '\n' ∧ suf.dropLast.getLast? = some ')')) :
    (c :: suf).getLast? = some ')' ∨
      ((c :: suf).getLast? = some '\n' ∧
        (c :: suf).dropLast.getLast? = some ')') := by
  rcases h with h | ⟨h1, h2⟩
  · have hne : suf ≠ [] := by intro he; rw [he] at h; simp at h
    exact Or.inl (by rw [getLast?_cons_ne_nil c hne]; exact h)
  · have hne : suf ≠ [] := by intro he; rw [he] at h1; simp at h1
    have hne2 : suf.dropLast ≠ [] := by intro he; rw [he] at h2; simp at h2
    refine Or.inr ⟨by rw [getLast?_cons_ne_nil c hne]; exact h1, ?_⟩
    rw [dropLast_cons_ne_nil c hne, getLast?_cons_ne_nil c hne2]
    exact h2

/-- A list accepted by the dollar-anchored end pattern ends in a closing
parenthesis, or in a closing parenthesis followed by one final newline. -/
theorem titleEndMatches_ends (suf : List Char) (h : titleEndMatches suf = true) :
    suf.getLast? = some ')' ∨
      (suf.getLast? = some '\n' ∧ suf.dropLast.getLast? = some ')') := by
  unfold titleEndMatches at h
  dsimp only at h
  by_cases hnl : (suf.getLast? == some '\n') = true
  · rw [if_pos hnl] at h
    exact Or.inr ⟨eq_of_beq hnl, eq_of_beq (Bool.and_eq_true _ _ |>.mp h).1⟩
  · rw [if_neg hnl] at h
    exact Or.inl (eq_of_beq (Bool.and_eq_true _ _ |>.mp h).1)

theorem titleStrip_some_last (l : List Char) :
    ∀ pre r, titleStrip pre l = some r →
      l.getLast? = some ')' ∨
      (l.getLast? = some '\n' ∧ l.dropLast.getLast? = some ')') := by
  induction l with
  | nil => intro pre r h; exact Option.noConfusion h
  | cons c suf ih =>
    intro pre r h
    unfold titleStrip at h
    rcases h2 : titleStrip (pre ++ [c]) suf with _ | r2
    · rw [h2] at h
      by_cases hcond : (pre.all (fun x => x != '\n') && titleTailMatches (c :: suf)) = true
      · have htm : titleTailMatches (c :: suf) = true :=
          (Bool.and_eq_true _ _ |>.mp hcond).2
        have he : titleEndMatches suf = true := by
          simp only [titleTailMatches, Bool.and_eq_true] at htm
          exact htm.2
        exact endsParen_cons c suf (titleEndMatches_ends suf he)
      · rw [Bool.not_eq_true] at hcond
        rw [hcond] at h
        simp at h
    · rw [h2] at h
      exact endsParen_cons c suf (ih (pre ++ [c]) r2 h2)

/-- C6: title normalization strips exactly one trailing parenthetical
clause through the single anchored greedy match — the concrete example;
the same with the parenthetical at the dollar anchor before one final
trailing newline, which the Python dollar also accepts; the general form,
where the note must not itself contain an opening parenthesis (the greedy
leading group otherwise swallows a longer prefix, stripping only the
rightmost parenthetical) — and a title with no trailing parenthetical at
the dollar anchor (its last character is not a closing parenthesis, nor a
newline immediately preceded by one) is returned unchanged. -/
theorem claim_C6 :
    normalizeTitle "Amélie (French with subtitles)" = "Amélie" ∧
    normalizeTitle "Foo (bar)\n" = "Foo" ∧
    (∀ t n : String, '\n' ∉ t.toList → '\n' ∉ n.toList → '(' ∉ n.toList →
      normalizeTitle (t ++ " (" ++ n ++ ")") = t) ∧
    (∀ s : String, s.toList.getLast? ≠ some ')' →
      ¬ (s.toList.getLast? = some '\n' ∧
          s.toList.dropLast.getLast? = some ')') →
      normalizeTitle s = s) := by
  refine ⟨rfl, rfl, ?_, ?_⟩
  · intro t n h1 h2 h3
    unfold normalizeTitle
    have htl : (t ++ " (" ++ n ++ ")").toList =
        t.toList ++ (' ' :: '(' :: (n.toList ++ [')'])) := by
      have h0 : (t ++ " (" ++ n ++ ")").toList =
          t.toList ++ " (".toList ++ n.toList ++ ")".toList := rfl
      rw [h0]
      simp [show " (".toList = [' ', '('] from rfl,
        show ")".toList = [')'] from rfl, List.append_assoc]
    rw [htl, titleStrip_strips n.toList h2 h3 t.toList [] h1 (by simp)]
    simp
  · intro s hs1 hs2
    unfold normalizeTitle
    rcases h : titleStrip [] s.toList with _ | r
    · rfl
    · rcases titleStrip_some_last s.toList [] r h with h3 | h3
      · exact absurd h3 hs1
      · exact absurd h3 hs2

/-- Witness for C6 at the concrete example title and note, and at a title
without a trailing parenthetical, applying the theorem with its
hypotheses discharged. -/
theorem claim_C6_witness :
    ('\n' ∉ "Amélie".toList ∧ '\n' ∉ "French with subtitles".toList ∧
      '(' ∉ "French with subtitles".toList ∧
      normalizeTitle ("Amélie" ++ " (" ++ "French with subtitles" ++ ")") =
        "Amélie") ∧
    ("Amélie".toList.getLast? ≠ some ')' ∧
      ¬ ("Amélie".toList.getLast? = some '\n' ∧
          "Amélie".toList.dropLast.getLast? = some ')') ∧
      normalizeTitle "Amélie" = "Amélie") :=
  ⟨⟨by decide, by decide, by decide,
    claim_C6.2.2.1 "Amélie" "French with subtitles" (by decide) (by decide) (by decide)⟩,
   ⟨by decide, by decide, claim_C6.2.2.2 "Amélie" (by decide) (by decide)⟩⟩
